import Mathlib

/-!
Verification of the waypoint-updater node
(`src/ros/src/waypoint_updater/waypoint_updater.py`).

The Python module is embedded shallowly over the real numbers:
IEEE doubles are idealized as `ℝ`, and the initial scan bound
`sys.float_info.max` (a value exceeding every distance the program is
meant to compute) is modelled as `⊤` in `WithTop ℝ`.  Fatal `assert`
failures and uncaught Python exceptions are modelled with
`Except String`.
-/

namespace WUpd

/-- Constant `LOOKAHEAD_WPS = 200` (line 18). -/
def LOOKAHEAD_WPS : Nat := 200

/-- Constant `POSE_QUEUE_SIZE = 50` (line 19). -/
def POSE_QUEUE_SIZE : Nat := 50

/-- Constant `MIN_UPDATE_DIST = 0.01` (line 21). -/
noncomputable def MIN_UPDATE_DIST : ℝ := 0.01

/-- Constant `WP_UNDEFINED = -1` (line 23). -/
def WP_UNDEFINED : Int := -1

/-- A 3-D point (geometry_msgs `Point`). -/
structure Position where
  x : ℝ
  y : ℝ
  z : ℝ

/-- A quaternion (geometry_msgs `Quaternion`), components (x, y, z, w). -/
structure Quat where
  x : ℝ
  y : ℝ
  z : ℝ
  w : ℝ

/-- A 3-D vector (geometry_msgs `Vector3`). -/
structure Vector3 where
  x : ℝ
  y : ℝ
  z : ℝ

/-- A twist: linear and angular velocity (geometry_msgs `Twist`). -/
structure Twist where
  linear : Vector3
  angular : Vector3

/-- A track waypoint (styx_msgs `Waypoint`): pose and twist.  The
position is `wp.pose.pose.position`, the orientation
`wp.pose.pose.orientation`, the twist `wp.twist.twist`. -/
structure Waypoint where
  pos : Position
  orient : Quat
  twist : Twist

/-- The default-constructed `Waypoint()` message: all fields zero. -/
def wpDefault : Waypoint :=
  ⟨⟨0, 0, 0⟩, ⟨0, 0, 0, 0⟩, ⟨⟨0, 0, 0⟩, ⟨0, 0, 0⟩⟩⟩

/-- A sample nonzero waypoint, used to instantiate witnesses. -/
def wpOne : Waypoint :=
  ⟨⟨1, 1, 1⟩, ⟨0, 0, 0, 1⟩, ⟨⟨1, 0, 0⟩, ⟨0, 0, 0⟩⟩⟩

/-- A stamped ego pose (geometry_msgs `PoseStamped`): header stamp,
position and orientation. -/
structure PoseStamped where
  stamp : ℝ
  pos : Position
  orient : Quat

/-- The default-constructed `PoseStamped()` message: all fields zero
(lines 40: `self.ego_pose = PoseStamped()`). -/
def poseDefault : PoseStamped := ⟨0, ⟨0, 0, 0⟩, ⟨0, 0, 0, 0⟩⟩

/-- `WaypointUpdater.distance` (lines 350-362): Euclidean distance
between two positions. -/
noncomputable def distance (p1 p2 : Position) : ℝ :=
  Real.sqrt ((p1.x - p2.x) ^ 2 + (p1.y - p2.y) ^ 2 + (p1.z - p2.z) ^ 2)

/-- The nearest-waypoint scan loop of `publish_waypoints`
(lines 87-94): running over the enumerated waypoint list with
accumulator `(closest_id, closest_dist)`, starting from
`(0, sys.float_info.max)` (the float maximum is modelled as `⊤`),
and updating on a strictly smaller distance. -/
noncomputable def scanClosest (ego_pos : Position) :
    List Waypoint → Nat → Nat × WithTop ℝ → Nat × WithTop ℝ
  | [], _, acc => acc
  | wp :: rest, i, acc =>
      scanClosest ego_pos rest (i + 1)
        (if (distance ego_pos wp.pos : WithTop ℝ) < acc.2
         then (i, (distance ego_pos wp.pos : WithTop ℝ))
         else acc)

/-- The index `closest_id` computed by the scan of lines 86-94. -/
noncomputable def closestWaypointId (waypoints : List Waypoint)
    (ego_pos : Position) : Nat :=
  (scanClosest ego_pos waypoints 0 (0, (⊤ : WithTop ℝ))).1

/-- Invariant of the scan loop: either no element strictly beats the
incoming accumulator (which is then returned unchanged), or the result
is the first strict minimum of the distances of the list, with its
absolute index. -/
theorem scanClosest_spec (ego : Position) (l : List Waypoint) (i : Nat)
    (acc : Nat × WithTop ℝ) :
    (scanClosest ego l i acc = acc ∧
      ∀ j (hj : j < l.length),
        acc.2 ≤ ((distance ego (l.get ⟨j, hj⟩).pos : ℝ) : WithTop ℝ)) ∨
    (∃ j, ∃ hj : j < l.length,
      (scanClosest ego l i acc).1 = i + j ∧
      (scanClosest ego l i acc).2
        = ((distance ego (l.get ⟨j, hj⟩).pos : ℝ) : WithTop ℝ) ∧
      (scanClosest ego l i acc).2 < acc.2 ∧
      (∀ j' (hj' : j' < l.length), j' < j →
        (scanClosest ego l i acc).2
          < ((distance ego (l.get ⟨j', hj'⟩).pos : ℝ) : WithTop ℝ)) ∧
      (∀ j' (hj' : j' < l.length),
        (scanClosest ego l i acc).2
          ≤ ((distance ego (l.get ⟨j', hj'⟩).pos : ℝ) : WithTop ℝ))) := by
  induction l generalizing i acc with
  | nil =>
      left
      refine ⟨rfl, ?_⟩
      intro j hj
      simp at hj
  | cons wp rest ih =>
      have hstep : scanClosest ego (wp :: rest) i acc
          = scanClosest ego rest (i + 1)
              (if (distance ego wp.pos : WithTop ℝ) < acc.2
               then (i, (distance ego wp.pos : WithTop ℝ))
               else acc) := rfl
      by_cases hc : (distance ego wp.pos : WithTop ℝ) < acc.2
      · -- the head strictly beats the incoming accumulator
        rw [if_pos hc] at hstep
        rcases ih (i + 1) (i, (distance ego wp.pos : WithTop ℝ)) with
          ⟨heq, hall⟩ | ⟨j, hj, h1, h2, h3, h4, h5⟩
        · right
          refine ⟨0, by simp, ?_, ?_, ?_, ?_, ?_⟩
          · rw [hstep, heq]; rfl
          · rw [hstep, heq]; rfl
          · rw [hstep, heq]; exact hc
          · intro j' hj' hlt; omega
          · intro j' hj'
            rw [hstep, heq]
            match j' with
            | 0 => exact le_refl _
            | k + 1 =>
                have hk : k < rest.length := by simpa using hj'
                exact hall k hk
        · right
          have hjlt : j + 1 < (wp :: rest).length := by
            simp only [List.length_cons]; omega
          refine ⟨j + 1, hjlt, ?_, ?_, ?_, ?_, ?_⟩
          · rw [hstep, h1]; omega
          · rw [hstep, h2]; rfl
          · rw [hstep]; exact lt_trans h3 hc
          · intro j' hj' hlt
            rw [hstep]
            match j' with
            | 0 => exact h3
            | k + 1 =>
                have hk : k < rest.length := by simpa using hj'
                exact h4 k hk (by omega)
          · intro j' hj'
            rw [hstep]
            match j' with
            | 0 => exact le_of_lt h3
            | k + 1 =>
                have hk : k < rest.length := by simpa using hj'
                exact h5 k hk
      · -- the head does not beat the incoming accumulator
        rw [if_neg hc] at hstep
        have hge : acc.2 ≤ (distance ego wp.pos : WithTop ℝ) := not_lt.mp hc
        rcases ih (i + 1) acc with
          ⟨heq, hall⟩ | ⟨j, hj, h1, h2, h3, h4, h5⟩
        · left
          refine ⟨by rw [hstep, heq], ?_⟩
          intro j' hj'
          match j' with
          | 0 => exact hge
          | k + 1 =>
              have hk : k < rest.length := by simpa using hj'
              exact hall k hk
        · right
          have hjlt : j + 1 < (wp :: rest).length := by
            simp only [List.length_cons]; omega
          refine ⟨j + 1, hjlt, ?_, ?_, ?_, ?_, ?_⟩
          · rw [hstep, h1]; omega
          · rw [hstep, h2]; rfl
          · rw [hstep]; exact h3
          · intro j' hj' hlt
            rw [hstep]
            match j' with
            | 0 => exact lt_of_lt_of_le h3 hge
            | k + 1 =>
                have hk : k < rest.length := by simpa using hj'
                exact h4 k hk (by omega)
          · intro j' hj'
            rw [hstep]
            match j' with
            | 0 => exact le_of_lt (lt_of_lt_of_le h3 hge)
            | k + 1 =>
                have hk : k < rest.length := by simpa using hj'
                exact h5 k hk

/-- The scan result, characterized on a nonempty track: its index is in
range, it is the first strict minimum and a global minimum of the
distances. -/
theorem closestWaypointId_spec (track : List Waypoint) (ego : Position)
    (hN : 1 ≤ track.length) :
    ∃ hi : closestWaypointId track ego < track.length,
      (∀ j (hj : j < track.length),
        distance ego (track.get ⟨closestWaypointId track ego, hi⟩).pos
          ≤ distance ego (track.get ⟨j, hj⟩).pos) ∧
      ∀ j (hj : j < track.length), j < closestWaypointId track ego →
        distance ego (track.get ⟨closestWaypointId track ego, hi⟩).pos
          < distance ego (track.get ⟨j, hj⟩).pos := by
  rcases scanClosest_spec ego track 0 (0, (⊤ : WithTop ℝ)) with
    ⟨_, hall⟩ | ⟨j, hj, h1, h2, _, h4, h5⟩
  · exfalso
    have h0 : 0 < track.length := hN
    have := hall 0 h0
    exact (WithTop.not_top_le_coe _) this
  · have hid : closestWaypointId track ego = j := by
      simp only [closestWaypointId, h1, Nat.zero_add]
    refine ⟨by rw [hid]; exact hj, ?_, ?_⟩
    · intro j' hj'
      have := h5 j' hj'
      rw [h2] at this
      have hcoe :
          (distance ego (track.get ⟨j, hj⟩).pos : ℝ)
            ≤ distance ego (track.get ⟨j', hj'⟩).pos :=
        WithTop.coe_le_coe.mp this
      simpa [hid] using hcoe
    · intro j' hj' hlt
      rw [hid] at hlt
      have := h4 j' hj' hlt
      rw [h2] at this
      have hcoe :
          (distance ego (track.get ⟨j, hj⟩).pos : ℝ)
            < distance ego (track.get ⟨j', hj'⟩).pos :=
        WithTop.coe_lt_coe.mp this
      simpa [hid] using hcoe

/-- C1: for every track of length N ≥ 1 and every ego position, the
nearest-waypoint scan in `publish_waypoints` returns an index whose
3-D Euclidean distance to the position is ≤ the distance to every
waypoint of the track, and every strictly smaller index has strictly
larger distance (ties resolve to the smallest index, by the strict
less-than comparison of the scan). -/
theorem nearest_scan_correct (track : List Waypoint) (ego : Position)
    (hN : 1 ≤ track.length) :
    ∃ hi : closestWaypointId track ego < track.length,
      (∀ j (hj : j < track.length),
        distance ego (track.get ⟨closestWaypointId track ego, hi⟩).pos
          ≤ distance ego (track.get ⟨j, hj⟩).pos) ∧
      ∀ j (hj : j < track.length), j < closestWaypointId track ego →
        distance ego (track.get ⟨closestWaypointId track ego, hi⟩).pos
          < distance ego (track.get ⟨j, hj⟩).pos :=
  closestWaypointId_spec track ego hN

/-- C1 witness: the scan property instantiated on the one-waypoint
track with the ego vehicle at the origin. -/
theorem nearest_scan_correct_witness :
    ∃ hi : closestWaypointId [wpDefault] ⟨0, 0, 0⟩ < ([wpDefault] : List Waypoint).length,
      (∀ j (hj : j < ([wpDefault] : List Waypoint).length),
        distance ⟨0, 0, 0⟩ (([wpDefault] : List Waypoint).get ⟨closestWaypointId [wpDefault] ⟨0, 0, 0⟩, hi⟩).pos
          ≤ distance ⟨0, 0, 0⟩ (([wpDefault] : List Waypoint).get ⟨j, hj⟩).pos) ∧
      ∀ j (hj : j < ([wpDefault] : List Waypoint).length),
        j < closestWaypointId [wpDefault] ⟨0, 0, 0⟩ →
        distance ⟨0, 0, 0⟩ (([wpDefault] : List Waypoint).get ⟨closestWaypointId [wpDefault] ⟨0, 0, 0⟩, hi⟩).pos
          < distance ⟨0, 0, 0⟩ (([wpDefault] : List Waypoint).get ⟨j, hj⟩).pos :=
  nearest_scan_correct [wpDefault] ⟨0, 0, 0⟩ (by simp)

/-- Model of Python `math.atan2 y x`: the angle of the point `(x, y)`
in `(-π, π]`, by quadrant correction of `arctan` (signed zeros are not
modelled; `atan2 0 0 = 0` as in Python). -/
noncomputable def atan2 (y x : ℝ) : ℝ :=
  if 0 < x then Real.arctan (y / x)
  else if x < 0 then
    (if 0 ≤ y then Real.arctan (y / x) + Real.pi
     else Real.arctan (y / x) - Real.pi)
  else
    (if 0 < y then Real.pi / 2
     else if y < 0 then -(Real.pi / 2) else 0)

/-- Truncation toward zero, as used by C / Python `fmod`. -/
noncomputable def trunc (r : ℝ) : ℤ := if 0 ≤ r then ⌊r⌋ else ⌈r⌉

/-- Model of Python `math.fmod x y`: `x - y * trunc (x / y)`. -/
noncomputable def fmod (x y : ℝ) : ℝ := x - y * (trunc (x / y) : ℝ)

/-- Model of the yaw component (`euler_angles[2]`) of
`tf.transformations.euler_from_quaternion` (lines 106-108; the external
`tf` library is modelled by the standard quaternion-to-yaw formula,
exact away from the gimbal-lock singularity). -/
noncomputable def yawFromQuaternion (q : Quat) : ℝ :=
  atan2 (2 * (q.w * q.z + q.x * q.y)) (1 - 2 * (q.y ^ 2 + q.z ^ 2))

/-- The `heading` computed at lines 118-119: bearing from the ego
position to a target position via `atan2(Δy, Δx)`. -/
noncomputable def bearing (ego_pos target : Position) : ℝ :=
  atan2 (target.y - ego_pos.y) (target.x - ego_pos.x)

/-- The normalization `fmod(a + 2π, 2π)` of lines 120-121. -/
noncomputable def normAngle (a : ℝ) : ℝ :=
  fmod (a + 2 * Real.pi) (2 * Real.pi)

/-- The fold of lines 123-124: angles above `π` are reflected to
`2π - angle`. -/
noncomputable def foldAngle (a : ℝ) : ℝ :=
  if a > Real.pi then 2 * Real.pi - a else a

/-- The head-selection step of `publish_waypoints` (lines 116-127):
starting from `first_id = closest_id`, compare the folded absolute
difference of normalized yaw and heading against `π / 2` and step to
the successor index (mod N) when it exceeds `π / 2`. -/
noncomputable def selectFirstId (track : List Waypoint) (ego_pos : Position)
    (ego_yaw : ℝ) (closest_id : Nat) : Nat :=
  let pos_closest := (track.getD closest_id wpDefault).pos
  let heading := normAngle (bearing ego_pos pos_closest)
  let yaw := normAngle ego_yaw
  let angle := foldAngle |yaw - heading|
  if angle > Real.pi / 2 then (closest_id + 1) % track.length else closest_id

/-- `atan2` always lands in `(-π, π]`. -/
theorem atan2_range (y x : ℝ) : -Real.pi < atan2 y x ∧ atan2 y x ≤ Real.pi := by
  have hπ := Real.pi_pos
  have hu := Real.arctan_lt_pi_div_two (y / x)
  have hl := Real.neg_pi_div_two_lt_arctan (y / x)
  unfold atan2
  by_cases hx : 0 < x
  · rw [if_pos hx]
    constructor <;> linarith
  · rw [if_neg hx]
    by_cases hx' : x < 0
    · rw [if_pos hx']
      by_cases hy : 0 ≤ y
      · rw [if_pos hy]
        have hq : y / x ≤ 0 := div_nonpos_iff.mpr (Or.inl ⟨hy, le_of_lt hx'⟩)
        have : Real.arctan (y / x) ≤ Real.arctan 0 :=
          Real.arctan_strictMono.monotone hq
        rw [Real.arctan_zero] at this
        constructor <;> linarith
      · rw [if_neg hy]
        push_neg at hy
        have hq : 0 < y / x := div_pos_iff.mpr (Or.inr ⟨hy, hx'⟩)
        have : Real.arctan 0 < Real.arctan (y / x) :=
          Real.arctan_strictMono hq
        rw [Real.arctan_zero] at this
        constructor <;> linarith
    · rw [if_neg hx']
      by_cases hy : 0 < y
      · rw [if_pos hy]; constructor <;> linarith
      · rw [if_neg hy]
        by_cases hy' : y < 0
        · rw [if_pos hy']; constructor <;> linarith
        · rw [if_neg hy']; constructor <;> linarith

/-- For a nonnegative dividend and positive divisor, `fmod` lands in
`[0, y)`. -/
theorem fmod_nonneg_lt (x y : ℝ) (hx : 0 ≤ x) (hy : 0 < y) :
    0 ≤ fmod x y ∧ fmod x y < y := by
  have hy0 : y ≠ 0 := ne_of_gt hy
  have hq : 0 ≤ x / y := div_nonneg hx hy.le
  have hd : y * (x / y) = x := by field_simp
  unfold fmod trunc
  rw [if_pos hq]
  have h1 : (⌊x / y⌋ : ℝ) ≤ x / y := Int.floor_le _
  have h2 : x / y < ⌊x / y⌋ + 1 := Int.lt_floor_add_one _
  have h1' : y * (⌊x / y⌋ : ℝ) ≤ y * (x / y) :=
    mul_le_mul_of_nonneg_left h1 hy.le
  have h2' : y * (x / y) < y * ((⌊x / y⌋ : ℝ) + 1) :=
    mul_lt_mul_of_pos_left h2 hy
  rw [hd] at h1' h2'
  constructor
  · linarith
  · nlinarith

/-- Normalizing an angle of `(-π, π]` by `fmod(· + 2π, 2π)` lands in
`[0, 2π)`. -/
theorem normAngle_mem (a : ℝ) (h1 : -Real.pi < a) (h2 : a ≤ Real.pi) :
    0 ≤ normAngle a ∧ normAngle a < 2 * Real.pi := by
  have hπ := Real.pi_pos
  have hx : 0 ≤ a + 2 * Real.pi := by linarith
  have hy : (0 : ℝ) < 2 * Real.pi := by linarith
  simpa [normAngle] using fmod_nonneg_lt (a + 2 * Real.pi) (2 * Real.pi) hx hy

/-- Folding a value of `[0, 2π)` lands in `[0, π]`. -/
theorem foldAngle_mem (a : ℝ) (h1 : 0 ≤ a) (h2 : a < 2 * Real.pi) :
    0 ≤ foldAngle a ∧ foldAngle a ≤ Real.pi := by
  unfold foldAngle
  by_cases hc : a > Real.pi
  · rw [if_pos hc]
    constructor <;> linarith
  · rw [if_neg hc]
    push_neg at hc
    exact ⟨h1, hc⟩

/-- C2: for every track of length N ≥ 1, ego position and orientation
quaternion, the head-selection step computes the bearing to the nearest
waypoint and the yaw extracted from the quaternion, normalizes both
into `[0, 2π)`, folds their absolute difference into `[0, π]`, and
selects `(nearest + 1) % N` exactly when the folded difference exceeds
`π / 2`, and `nearest` otherwise. -/
theorem select_head_spec (track : List Waypoint) (ego_pos : Position)
    (q : Quat) (hN : 1 ≤ track.length) :
    let yaw := yawFromQuaternion q
    let nearest := closestWaypointId track ego_pos
    let b := bearing ego_pos (track.getD nearest wpDefault).pos
    let angle := foldAngle |normAngle yaw - normAngle b|
    (0 ≤ normAngle b ∧ normAngle b < 2 * Real.pi) ∧
    (0 ≤ normAngle yaw ∧ normAngle yaw < 2 * Real.pi) ∧
    (0 ≤ angle ∧ angle ≤ Real.pi) ∧
    selectFirstId track ego_pos yaw nearest
      = if angle > Real.pi / 2 then (nearest + 1) % track.length
        else nearest := by
  intro yaw nearest b angle
  have hb : -Real.pi < b ∧ b ≤ Real.pi := atan2_range _ _
  have hyaw : -Real.pi < yaw ∧ yaw ≤ Real.pi := atan2_range _ _
  have hnb := normAngle_mem b hb.1 hb.2
  have hny := normAngle_mem yaw hyaw.1 hyaw.2
  have habs : |normAngle yaw - normAngle b| < 2 * Real.pi := by
    rw [abs_sub_lt_iff]
    constructor <;> linarith [hnb.1, hnb.2, hny.1, hny.2]
  have hfold := foldAngle_mem _ (abs_nonneg (normAngle yaw - normAngle b)) habs
  exact ⟨hnb, hny, hfold, rfl⟩

/-- C2 witness: the head-selection property instantiated on the
one-waypoint track with the ego vehicle at the origin and the identity
orientation quaternion. -/
theorem select_head_spec_witness :
    let yaw := yawFromQuaternion ⟨0, 0, 0, 1⟩
    let nearest := closestWaypointId [wpDefault] ⟨0, 0, 0⟩
    let b := bearing ⟨0, 0, 0⟩ (([wpDefault] : List Waypoint).getD nearest wpDefault).pos
    let angle := foldAngle |normAngle yaw - normAngle b|
    (0 ≤ normAngle b ∧ normAngle b < 2 * Real.pi) ∧
    (0 ≤ normAngle yaw ∧ normAngle yaw < 2 * Real.pi) ∧
    (0 ≤ angle ∧ angle ≤ Real.pi) ∧
    selectFirstId [wpDefault] ⟨0, 0, 0⟩ yaw nearest
      = if angle > Real.pi / 2 then (nearest + 1) % ([wpDefault] : List Waypoint).length
        else nearest :=
  select_head_spec [wpDefault] ⟨0, 0, 0⟩ ⟨0, 0, 0, 1⟩ (by simp)

/-- The window loop of `publish_waypoints` (lines 147-151): for
`k` remaining iterations, overwrite slot `i` of the reused
`final_waypoints` list with `waypoints[first_id]` and advance
`first_id = (first_id + 1) % len(waypoints)`. -/
def writeWindowAux (track : List Waypoint) :
    Nat → Nat → Nat → List Waypoint → List Waypoint
  | 0, _, _, final => final
  | k + 1, i, fid, final =>
      writeWindowAux track k (i + 1) ((fid + 1) % track.length)
        (final.set i (track.getD fid wpDefault))

/-- The full window pass: `LOOKAHEAD_WPS` iterations starting at
slot 0 from head index `fid` (lines 147-151). -/
def writeWindow (track final : List Waypoint) (fid : Nat) : List Waypoint :=
  writeWindowAux track LOOKAHEAD_WPS 0 fid final

/-- Invariant of the window loop: it preserves the list length,
writes `track[(fid + t) % N]` into slot `i + t` for `t < k`, and leaves
slots outside `[i, i + k)` unchanged. -/
theorem writeWindowAux_spec (track : List Waypoint) (k : Nat) :
    ∀ (i fid : Nat) (final : List Waypoint), fid < track.length →
      i + k ≤ final.length →
      (writeWindowAux track k i fid final).length = final.length ∧
      (∀ t, t < k →
        (writeWindowAux track k i fid final)[i + t]?
          = some (track.getD ((fid + t) % track.length) wpDefault)) ∧
      (∀ j, j < i → (writeWindowAux track k i fid final)[j]? = final[j]?) ∧
      (∀ j, i + k ≤ j →
        (writeWindowAux track k i fid final)[j]? = final[j]?) := by
  induction k with
  | zero =>
      intro i fid final hfid hik
      refine ⟨rfl, ?_, ?_, ?_⟩
      · intro t ht; omega
      · intro j _; rfl
      · intro j _; rfl
  | succ k ih =>
      intro i fid final hfid hik
      have hN : 0 < track.length := by omega
      have hstep : writeWindowAux track (k + 1) i fid final
          = writeWindowAux track k (i + 1) ((fid + 1) % track.length)
              (final.set i (track.getD fid wpDefault)) := rfl
      have hfid' : (fid + 1) % track.length < track.length :=
        Nat.mod_lt _ hN
      have hlen' : (final.set i (track.getD fid wpDefault)).length
          = final.length := List.length_set final i _
      have hik' : (i + 1) + k ≤ (final.set i (track.getD fid wpDefault)).length := by
        rw [hlen']; omega
      obtain ⟨ih1, ih2, ih3, ih4⟩ := ih (i + 1) ((fid + 1) % track.length)
        (final.set i (track.getD fid wpDefault)) hfid' hik'
      refine ⟨?_, ?_, ?_, ?_⟩
      · rw [hstep, ih1, hlen']
      · intro t ht
        rw [hstep]
        match t with
        | 0 =>
            have hji : i < i + 1 := by omega
            have hilen : i < final.length := by omega
            simp only [Nat.add_zero]
            rw [ih3 i hji, List.getElem?_set_eq_of_lt _ hilen,
              Nat.mod_eq_of_lt hfid]
        | s + 1 =>
            have hs : s < k := by omega
            have := ih2 s hs
            have harith : i + (s + 1) = (i + 1) + s := by omega
            rw [harith, this]
            have hmod : ((fid + 1) % track.length + s) % track.length
                = (fid + (s + 1)) % track.length := by
              rw [Nat.mod_add_mod]
              congr 1
              omega
            rw [hmod]
      · intro j hj
        rw [hstep, ih3 j (by omega)]
        exact List.getElem?_set_ne (by omega) ..
      · intro j hj
        rw [hstep, ih4 j (by omega)]
        exact List.getElem?_set_ne (by omega) ..

/-- C3: for every track of length N ≥ 1 and every head index, the
window pass over a (previously published) buffer of length
`LOOKAHEAD_WPS = 200` produces exactly 200 entries with
`window[i] = track[(head + i) % N]` for every `i < 200`, and the
window is a pure function of `(track, head)`: its content does not
depend on the previous buffer. -/
theorem build_window_spec (track final1 final2 : List Waypoint) (head : Nat)
    (hN : 1 ≤ track.length) (hhead : head < track.length)
    (h1 : final1.length = LOOKAHEAD_WPS) (h2 : final2.length = LOOKAHEAD_WPS) :
    (writeWindow track final1 head).length = 200 ∧
    (∀ i, i < 200 →
      (writeWindow track final1 head)[i]?
        = some (track.getD ((head + i) % track.length) wpDefault)) ∧
    writeWindow track final1 head = writeWindow track final2 head := by
  have hs1 := writeWindowAux_spec track LOOKAHEAD_WPS 0 head final1 hhead
    (by rw [h1]; omega)
  have hs2 := writeWindowAux_spec track LOOKAHEAD_WPS 0 head final2 hhead
    (by rw [h2]; omega)
  obtain ⟨hl1, hc1, -, -⟩ := hs1
  obtain ⟨hl2, hc2, -, -⟩ := hs2
  have hK : LOOKAHEAD_WPS = 200 := rfl
  refine ⟨by rw [writeWindow, hl1, h1]; exact hK, ?_, ?_⟩
  · intro i hi
    have := hc1 i (by rw [hK]; exact hi)
    simpa using this
  · apply List.ext_getElem?
    intro n
    by_cases hn : n < 200
    · have e1 := hc1 n (by rw [hK]; exact hn)
      have e2 := hc2 n (by rw [hK]; exact hn)
      simp only [Nat.zero_add] at e1 e2
      rw [writeWindow, writeWindow, e1, e2]
    · have hnone1 : (writeWindowAux track LOOKAHEAD_WPS 0 head final1)[n]? = none := by
        apply List.getElem?_eq_none
        rw [hl1, h1, hK]; omega
      have hnone2 : (writeWindowAux track LOOKAHEAD_WPS 0 head final2)[n]? = none := by
        apply List.getElem?_eq_none
        rw [hl2, h2, hK]; omega
      rw [writeWindow, writeWindow, hnone1, hnone2]

/-- C3 witness: the window property instantiated on the one-waypoint
track with head index 0 and two distinct previous buffers. -/
theorem build_window_spec_witness :
    (writeWindow [wpDefault] (List.replicate 200 wpDefault) 0).length = 200 ∧
    (∀ i, i < 200 →
      (writeWindow [wpDefault] (List.replicate 200 wpDefault) 0)[i]?
        = some (([wpDefault] : List Waypoint).getD
            ((0 + i) % ([wpDefault] : List Waypoint).length) wpDefault)) ∧
    writeWindow [wpDefault] (List.replicate 200 wpDefault) 0
      = writeWindow [wpDefault] (List.replicate 200 wpOne) 0 :=
  build_window_spec [wpDefault] (List.replicate 200 wpDefault)
    (List.replicate 200 wpOne) 0 (Nat.le_refl 1) Nat.zero_lt_one
    (by rw [List.length_replicate]; rfl) (by rw [List.length_replicate]; rfl)

/-- The mutable state of the `WaypointUpdater` node (the members set in
`__init__`, lines 40-69). -/
structure UpdaterState where
  ego_pose : PoseStamped
  ego_pose_queue : List PoseStamped
  waypoints : List Waypoint
  wp_traffic_light : Int
  wp_obstacle : Int
  final_stamp : ℝ
  final_waypoints : List Waypoint
  v_max : ℝ

/-- The state after `__init__` (lines 40-69): default ego pose, empty
pose queue, empty track, both overlay indices `WP_UNDEFINED`, a
`final_waypoints` buffer of 200 default waypoints, `v_max = 0`. -/
def initState : UpdaterState :=
  ⟨poseDefault, [], [], WP_UNDEFINED, WP_UNDEFINED, 0,
   List.replicate LOOKAHEAD_WPS wpDefault, 0⟩

/-- `deque(maxlen = n).append`: append on the right, dropping from the
left when the capacity is exceeded (line 41 and line 181). -/
def dequeAppend (q : List PoseStamped) (p : PoseStamped) (maxlen : Nat) :
    List PoseStamped :=
  let q2 := q ++ [p]
  if maxlen < q2.length then q2.drop (q2.length - maxlen) else q2

/-- `WaypointUpdater.publish_waypoints` (lines 74-154): assert the
track is nonempty, find the nearest waypoint, select the head index
from the heading, overwrite the reused `final_waypoints` buffer with
the circular window, stamp it with the ego pose's stamp, and publish
it (the published window is returned alongside the new state). -/
noncomputable def publish_waypoints (s : UpdaterState) :
    Except String (UpdaterState × List Waypoint) :=
  if s.waypoints.length = 0 then Except.error "Track waypoints not set"
  else
    let ego_pos := s.ego_pose.pos
    let closest_id := closestWaypointId s.waypoints ego_pos
    let ego_yaw := yawFromQuaternion s.ego_pose.orient
    let first_id := selectFirstId s.waypoints ego_pos ego_yaw closest_id
    let final := writeWindow s.waypoints s.final_waypoints first_id
    Except.ok ({ s with final_stamp := s.ego_pose.stamp,
                        final_waypoints := final }, final)

/-- `WaypointUpdater.pose_cb` (lines 156-184): compute the distance
travelled since the last accepted pose; return with no effect when it
is below `MIN_UPDATE_DIST`; otherwise store the pose, append it to the
bounded history and publish a waypoint update. -/
noncomputable def pose_cb (s : UpdaterState) (ego_pose : PoseStamped) :
    Except String (UpdaterState × Option (List Waypoint)) :=
  let dist_travelled := distance ego_pose.pos s.ego_pose.pos
  if dist_travelled < MIN_UPDATE_DIST then Except.ok (s, none)
  else
    let s1 := { s with ego_pose := ego_pose }
    let s2 := { s1 with
      ego_pose_queue := dequeAppend s1.ego_pose_queue s1.ego_pose POSE_QUEUE_SIZE }
    match publish_waypoints s2 with
    | Except.error e => Except.error e
    | Except.ok (s3, w) => Except.ok (s3, some w)

/-- `WaypointUpdater.waypoints_cb` (lines 186-193): store the track
waypoints and the maximum velocity (km/h converted to m/s). -/
noncomputable def waypoints_cb (s : UpdaterState) (waypoints : List Waypoint)
    (velocity : ℝ) : UpdaterState :=
  { s with waypoints := waypoints, v_max := velocity / 3.6 }

/-- `WaypointUpdater.check_waypoint_index` (lines 231-235): assert
`0 <= wp_index < len(waypoints)`. -/
def check_waypoint_index (waypoints : List Waypoint) (wp_index : Int) :
    Except String Unit :=
  if 0 ≤ wp_index ∧ wp_index < (waypoints.length : Int) then Except.ok ()
  else Except.error "Invalid waypoint index"

/-- `WaypointUpdater.traffic_cb` (lines 195-211): store the received
index, and when it is not the sentinel validate it.  With `VERBOSE = 1`
the logging statement at line 211 then reads `self.waypoint`, an
attribute never assigned anywhere in the class (the list is
`self.waypoints`), so for every valid non-sentinel index the handler
raises `AttributeError` after the successful validation. -/
def traffic_cb (s : UpdaterState) (data : Int) :
    UpdaterState × Except String Unit :=
  let s2 := { s with wp_traffic_light := data }
  if s2.wp_traffic_light ≠ WP_UNDEFINED then
    match check_waypoint_index s2.waypoints s2.wp_traffic_light with
    | Except.error e => (s2, Except.error e)
    | Except.ok _ => (s2, Except.error "AttributeError: no attribute waypoint")
  else (s2, Except.ok ())

/-- `WaypointUpdater.obstacle_cb` (lines 213-229): same shape as
`traffic_cb`, on `wp_obstacle`; line 229 has the same `self.waypoint`
attribute error in the logging of a valid index. -/
def obstacle_cb (s : UpdaterState) (data : Int) :
    UpdaterState × Except String Unit :=
  let s2 := { s with wp_obstacle := data }
  if s2.wp_obstacle ≠ WP_UNDEFINED then
    match check_waypoint_index s2.waypoints s2.wp_obstacle with
    | Except.error e => (s2, Except.error e)
    | Except.ok _ => (s2, Except.error "AttributeError: no attribute waypoint")
  else (s2, Except.ok ())

/-- The state of `pose_cb` after an accepted pose is stored and
appended to the history (lines 178-181), before publishing. -/
noncomputable def acceptedState (s : UpdaterState) (p : PoseStamped) :
    UpdaterState :=
  { s with
    ego_pose := p,
    ego_pose_queue := dequeAppend s.ego_pose_queue p POSE_QUEUE_SIZE }

/-- The window `publish_waypoints` writes and publishes from state
`s` (lines 86-151): head selection applied to the nearest-waypoint
index, then the circular window pass over the reused buffer. -/
noncomputable def publishedWindow (s : UpdaterState) : List Waypoint :=
  writeWindow s.waypoints s.final_waypoints
    (selectFirstId s.waypoints s.ego_pose.pos
      (yawFromQuaternion s.ego_pose.orient)
      (closestWaypointId s.waypoints s.ego_pose.pos))

/-- The state after a successful `publish_waypoints` from state `s`:
the window buffer holds the published window, stamped with the ego
pose's stamp. -/
noncomputable def publishedState (s : UpdaterState) : UpdaterState :=
  { s with
    final_stamp := s.ego_pose.stamp,
    final_waypoints := publishedWindow s }

/-- On a nonempty track, `publish_waypoints` succeeds and returns the
window written from the selected head index, also stored (with the
triggering stamp) in the state. -/
theorem publish_waypoints_ok (s : UpdaterState)
    (h : ¬ s.waypoints.length = 0) :
    publish_waypoints s = Except.ok (publishedState s, publishedWindow s) := by
  simp only [publish_waypoints, publishedState, publishedWindow]
  rw [if_neg h]

/-- The accepted-pose step of `pose_cb`: with the debounce check
passed, the handler stores the pose, appends it to the history, and
runs `publish_waypoints` on the updated state. -/
theorem pose_cb_accept (s : UpdaterState) (p : PoseStamped)
    (h : MIN_UPDATE_DIST ≤ distance p.pos s.ego_pose.pos) :
    pose_cb s p =
      match publish_waypoints (acceptedState s p) with
      | Except.error e => Except.error e
      | Except.ok (s3, w) => Except.ok (s3, some w) := by
  simp only [pose_cb, acceptedState]
  rw [if_neg (not_lt.mpr h)]

/-- C4: a pose closer than `MIN_UPDATE_DIST` to the last accepted pose
is rejected with no side effect (state unchanged, nothing published);
an accepted pose (distance ≥ `MIN_UPDATE_DIST`, here on a nonempty
track) is stored as current, appended to the bounded history, and
triggers exactly one window publication. -/
theorem pose_update_frame (s : UpdaterState) (p : PoseStamped) :
    (distance p.pos s.ego_pose.pos < MIN_UPDATE_DIST →
      pose_cb s p = Except.ok (s, none)) ∧
    (MIN_UPDATE_DIST ≤ distance p.pos s.ego_pose.pos →
      s.waypoints ≠ [] →
      ∃ sFin w,
        pose_cb s p = Except.ok (sFin, some w) ∧
        sFin.ego_pose = p ∧
        sFin.ego_pose_queue = dequeAppend s.ego_pose_queue p POSE_QUEUE_SIZE ∧
        sFin.waypoints = s.waypoints ∧
        sFin.final_waypoints = w) := by
  constructor
  · intro h
    simp only [pose_cb]
    rw [if_pos h]
  · intro h hw
    have hlen : ¬ (acceptedState s p).waypoints.length = 0 := by
      simp only [acceptedState]
      simpa using fun hh => hw (List.length_eq_zero.mp hh)
    refine ⟨publishedState (acceptedState s p),
      publishedWindow (acceptedState s p), ?_, ?_, ?_, ?_, ?_⟩
    · rw [pose_cb_accept s p h, publish_waypoints_ok _ hlen]
    · simp only [publishedState, acceptedState]
    · simp only [publishedState, acceptedState]
    · simp only [publishedState, acceptedState]
    · simp only [publishedState]

/-- C4 witness: the rejection branch at the initial state with a pose
at distance 0 from the stored default pose. -/
theorem pose_update_frame_witness :
    pose_cb initState poseDefault = Except.ok (initState, none) := by
  refine (pose_update_frame initState poseDefault).1 ?_
  have hd : distance poseDefault.pos initState.ego_pose.pos = 0 := by
    simp [distance, poseDefault, initState]
  rw [hd, MIN_UPDATE_DIST]
  norm_num

/-- C5: an accepted pose update while the stored track is empty fails
fatally at the `assert len(self.waypoints)` precondition; no window is
published. -/
theorem empty_track_fatal (s : UpdaterState) (p : PoseStamped)
    (hempty : s.waypoints = [])
    (hacc : MIN_UPDATE_DIST ≤ distance p.pos s.ego_pose.pos) :
    pose_cb s p = Except.error "Track waypoints not set" := by
  have hlen : (acceptedState s p).waypoints.length = 0 := by
    simp [acceptedState, hempty]
  rw [pose_cb_accept s p hacc]
  simp only [publish_waypoints]
  rw [if_pos hlen]

/-- C5 witness: a pose one distance unit from the origin against the
freshly initialized (empty-track) state fails fatally. -/
theorem empty_track_fatal_witness :
    pose_cb initState ⟨0, ⟨1, 0, 0⟩, ⟨0, 0, 0, 1⟩⟩
      = Except.error "Track waypoints not set" := by
  refine empty_track_fatal initState ⟨0, ⟨1, 0, 0⟩, ⟨0, 0, 0, 1⟩⟩ rfl ?_
  have hd : distance (⟨1, 0, 0⟩ : Position) initState.ego_pose.pos = 1 := by
    simp [distance, initState, poseDefault]
  rw [hd, MIN_UPDATE_DIST]
  norm_num

/-- C6: the sentinel `-1` never reaches index validation and is stored
as the "none" value on both overlay callbacks; every non-sentinel
index that is negative or `≥ N` makes the validation assert fail
fatally, on both callbacks. -/
theorem overlay_validation (s : UpdaterState) (v : Int)
    (hv : v ≠ WP_UNDEFINED)
    (hrange : v < 0 ∨ (s.waypoints.length : Int) ≤ v) :
    traffic_cb s WP_UNDEFINED
      = ({ s with wp_traffic_light := WP_UNDEFINED }, Except.ok ()) ∧
    obstacle_cb s WP_UNDEFINED
      = ({ s with wp_obstacle := WP_UNDEFINED }, Except.ok ()) ∧
    (traffic_cb s v).2 = Except.error "Invalid waypoint index" ∧
    (obstacle_cb s v).2 = Except.error "Invalid waypoint index" := by
  have hinv : ¬ (0 ≤ v ∧ v < (s.waypoints.length : Int)) := by omega
  refine ⟨?_, ?_, ?_, ?_⟩
  · simp only [traffic_cb]
    rw [if_neg (by simp)]
  · simp only [obstacle_cb]
    rw [if_neg (by simp)]
  · simp only [traffic_cb, check_waypoint_index]
    rw [if_pos (by simpa using hv), if_neg hinv]
  · simp only [obstacle_cb, check_waypoint_index]
    rw [if_pos (by simpa using hv), if_neg hinv]

/-- C6 witness: on the initial (empty-track) state, the sentinel is
stored without validation and the non-sentinel index 5 fails fatally
on both callbacks. -/
theorem overlay_validation_witness :
    traffic_cb initState WP_UNDEFINED
      = ({ initState with wp_traffic_light := WP_UNDEFINED }, Except.ok ()) ∧
    obstacle_cb initState WP_UNDEFINED
      = ({ initState with wp_obstacle := WP_UNDEFINED }, Except.ok ()) ∧
    (traffic_cb initState 5).2 = Except.error "Invalid waypoint index" ∧
    (obstacle_cb initState 5).2 = Except.error "Invalid waypoint index" :=
  overlay_validation initState 5 (by decide)
    (Or.inr (by simp [initState]))

/-- C8 counterexample: on the initial state (stored traffic overlay
`-1`, empty track), the out-of-range update `5` fails validation, yet
the stored traffic overlay after the failure is `5`, not its previous
value: line 203 assigns before line 205 validates. -/
theorem overlay_error_retains_index_cex :
    (traffic_cb initState 5).2 = Except.error "Invalid waypoint index" ∧
    initState.wp_traffic_light = -1 ∧
    (traffic_cb initState 5).1.wp_traffic_light = 5 ∧
    (traffic_cb initState 5).1.wp_traffic_light ≠ initState.wp_traffic_light := by
  refine ⟨?_, rfl, ?_, ?_⟩
  · simp only [traffic_cb, check_waypoint_index]
    rw [if_pos (by decide), if_neg (by simp [initState])]
  · simp only [traffic_cb, check_waypoint_index]
    split <;> rfl
  · simp only [traffic_cb, check_waypoint_index]
    split <;> decide

/-- C8 amended: a non-sentinel overlay index outside `[0, N)` makes the
handler fail fatally, but the corrupted index has already been stored
(the assignment precedes the validation); the fatal failure is what
prevents further processing from consuming it. -/
theorem overlay_error_state (s : UpdaterState) (v : Int)
    (hv : v ≠ WP_UNDEFINED)
    (hrange : v < 0 ∨ (s.waypoints.length : Int) ≤ v) :
    traffic_cb s v
      = ({ s with wp_traffic_light := v }, Except.error "Invalid waypoint index") ∧
    obstacle_cb s v
      = ({ s with wp_obstacle := v }, Except.error "Invalid waypoint index") := by
  have hinv : ¬ (0 ≤ v ∧ v < (s.waypoints.length : Int)) := by omega
  constructor
  · simp only [traffic_cb, check_waypoint_index]
    rw [if_pos (by simpa using hv), if_neg hinv]
  · simp only [obstacle_cb, check_waypoint_index]
    rw [if_pos (by simpa using hv), if_neg hinv]

/-- C8 amended witness: the out-of-range update 7 on the initial
state. -/
theorem overlay_error_state_witness :
    traffic_cb initState 7
      = ({ initState with wp_traffic_light := 7 }, Except.error "Invalid waypoint index") ∧
    obstacle_cb initState 7
      = ({ initState with wp_obstacle := 7 }, Except.error "Invalid waypoint index") :=
  overlay_error_state initState 7 (by decide) (Or.inr (by simp [initState]))

/-- C9 (code bug): on a one-waypoint track, the valid non-sentinel
overlay index 0 passes validation, but both handlers then fail with
`AttributeError` in the logging statement (lines 211 and 229 read
`self.waypoint`, an attribute that is never assigned; the list is
`self.waypoints`), instead of completing without error as specified. -/
theorem overlay_valid_index_attribute_error :
    check_waypoint_index (waypoints_cb initState [wpDefault] 40).waypoints 0
      = Except.ok () ∧
    (traffic_cb (waypoints_cb initState [wpDefault] 40) 0).2
      = Except.error "AttributeError: no attribute waypoint" ∧
    (obstacle_cb (waypoints_cb initState [wpDefault] 40) 0).2
      = Except.error "AttributeError: no attribute waypoint" := by
  have hok : check_waypoint_index
      (waypoints_cb initState [wpDefault] 40).waypoints 0 = Except.ok () := by
    simp only [check_waypoint_index, waypoints_cb]
    rw [if_pos (by simp)]
  refine ⟨hok, ?_, ?_⟩
  · simp only [traffic_cb]
    rw [if_pos (by decide)]
    rw [show ({ waypoints_cb initState [wpDefault] 40 with
          wp_traffic_light := 0 } : UpdaterState).waypoints
        = (waypoints_cb initState [wpDefault] 40).waypoints from rfl]
    rw [hok]
  · simp only [obstacle_cb]
    rw [if_pos (by decide)]
    rw [show ({ waypoints_cb initState [wpDefault] 40 with
          wp_obstacle := 0 } : UpdaterState).waypoints
        = (waypoints_cb initState [wpDefault] 40).waypoints from rfl]
    rw [hok]

/-- C10: the `__init__` state stores a default pose at the origin as
the "last accepted pose", so a first incoming pose within
`MIN_UPDATE_DIST` of the origin is rejected by the debounce check even
though no pose was ever accepted, and no window is published. -/
theorem initial_pose_debounce (p : PoseStamped)
    (h : distance p.pos (⟨0, 0, 0⟩ : Position) < MIN_UPDATE_DIST) :
    initState.ego_pose = poseDefault ∧
    poseDefault.pos = (⟨0, 0, 0⟩ : Position) ∧
    pose_cb initState p = Except.ok (initState, none) := by
  refine ⟨rfl, rfl, ?_⟩
  have h2 : distance p.pos initState.ego_pose.pos < MIN_UPDATE_DIST := h
  simp only [pose_cb]
  rw [if_pos h2]

/-- C10 witness: the very first pose, 0.005 distance units from the
origin, is rejected with nothing published. -/
theorem initial_pose_debounce_witness :
    initState.ego_pose = poseDefault ∧
    poseDefault.pos = (⟨0, 0, 0⟩ : Position) ∧
    pose_cb initState ⟨0, ⟨0.005, 0, 0⟩, ⟨0, 0, 0, 1⟩⟩
      = Except.ok (initState, none) := by
  refine initial_pose_debounce ⟨0, ⟨0.005, 0, 0⟩, ⟨0, 0, 0, 1⟩⟩ ?_
  have hd : distance (⟨0.005, 0, 0⟩ : Position) (⟨0, 0, 0⟩ : Position)
      = Real.sqrt 0.000025 := by
    simp only [distance]
    norm_num
  rw [hd, MIN_UPDATE_DIST]
  rw [show (0.000025 : ℝ) = 0.005 ^ 2 by norm_num]
  rw [Real.sqrt_sq (by norm_num)]
  norm_num

/-- Scenario track, waypoint 0: position (0, 0). -/
def wpA : Waypoint := ⟨⟨0, 0, 0⟩, ⟨0, 0, 0, 1⟩, ⟨⟨0, 0, 0⟩, ⟨0, 0, 0⟩⟩⟩

/-- Scenario track, waypoint 1: position (1, 0). -/
def wpB : Waypoint := ⟨⟨1, 0, 0⟩, ⟨0, 0, 0, 1⟩, ⟨⟨0, 0, 0⟩, ⟨0, 0, 0⟩⟩⟩

/-- Scenario track, waypoint 2: position (1, 1). -/
def wpC : Waypoint := ⟨⟨1, 1, 0⟩, ⟨0, 0, 0, 1⟩, ⟨⟨0, 0, 0⟩, ⟨0, 0, 0⟩⟩⟩

/-- Scenario track, waypoint 3: position (0, 1). -/
def wpD : Waypoint := ⟨⟨0, 1, 0⟩, ⟨0, 0, 0, 1⟩, ⟨⟨0, 0, 0⟩, ⟨0, 0, 0⟩⟩⟩

/-- The square scenario track with waypoints at (0,0), (1,0), (1,1),
(0,1). -/
def track4 : List Waypoint := [wpA, wpB, wpC, wpD]

/-- The scenario-B ego position (1.05, 0). -/
noncomputable def egoPosB : Position := ⟨1.05, 0, 0⟩

/-- The scenario-B ego pose: position (1.05, 0), identity orientation
(yaw 0). -/
noncomputable def poseB : PoseStamped := ⟨0, egoPosB, ⟨0, 0, 0, 1⟩⟩

/-- The node state for scenario B: square track loaded, ego pose
accepted, fresh window buffer. -/
noncomputable def stateB : UpdaterState :=
  ⟨poseB, [poseB], track4, WP_UNDEFINED, WP_UNDEFINED, 0,
   List.replicate LOOKAHEAD_WPS wpDefault, 0⟩

/-- Distance from the scenario-B ego position to waypoint 0. -/
theorem distB0 : distance egoPosB wpA.pos = Real.sqrt 1.1025 := by
  simp only [distance, egoPosB, wpA]
  norm_num

/-- Distance from the scenario-B ego position to waypoint 1. -/
theorem distB1 : distance egoPosB wpB.pos = Real.sqrt 0.0025 := by
  simp only [distance, egoPosB, wpB]
  norm_num

/-- Distance from the scenario-B ego position to waypoint 2. -/
theorem distB2 : distance egoPosB wpC.pos = Real.sqrt 1.0025 := by
  simp only [distance, egoPosB, wpC]
  norm_num

/-- Distance from the scenario-B ego position to waypoint 3. -/
theorem distB3 : distance egoPosB wpD.pos = Real.sqrt 2.1025 := by
  simp only [distance, egoPosB, wpD]
  norm_num

/-- The nearest-waypoint scan on scenario B returns index 1. -/
theorem closestB : closestWaypointId track4 egoPosB = 1 := by
  have h1 : ((Real.sqrt 1.1025 : ℝ) : WithTop ℝ) < (⊤ : WithTop ℝ) :=
    WithTop.coe_lt_top _
  have h2 : ((Real.sqrt 0.0025 : ℝ) : WithTop ℝ)
      < ((Real.sqrt 1.1025 : ℝ) : WithTop ℝ) := by
    exact_mod_cast Real.sqrt_lt_sqrt (by norm_num) (by norm_num)
  have h3 : ¬ ((Real.sqrt 1.0025 : ℝ) : WithTop ℝ)
      < ((Real.sqrt 0.0025 : ℝ) : WithTop ℝ) := by
    simp only [WithTop.coe_lt_coe, not_lt]
    exact Real.sqrt_le_sqrt (by norm_num)
  have h4 : ¬ ((Real.sqrt 2.1025 : ℝ) : WithTop ℝ)
      < ((Real.sqrt 0.0025 : ℝ) : WithTop ℝ) := by
    simp only [WithTop.coe_lt_coe, not_lt]
    exact Real.sqrt_le_sqrt (by norm_num)
  simp [closestWaypointId, track4, scanClosest, distB0, distB1, distB2,
    distB3, h1, h2, h3, h4]

/-- The identity quaternion extracts to yaw 0. -/
theorem yawB : yawFromQuaternion ⟨0, 0, 0, 1⟩ = 0 := by
  norm_num [yawFromQuaternion, atan2, Real.arctan_zero]

/-- The bearing from the scenario-B ego position to waypoint 1 is
`atan2 0 (-0.05) = π`. -/
theorem bearB : bearing egoPosB wpB.pos = Real.pi := by
  simp only [bearing, egoPosB, wpB]
  rw [show (0 : ℝ) - 0 = 0 by ring, show (1 : ℝ) - 1.05 = -0.05 by norm_num]
  simp only [atan2]
  rw [if_neg (by norm_num), if_pos (by norm_num), if_pos (by norm_num)]
  norm_num [Real.arctan_zero]

/-- Normalizing `π` into `[0, 2π)` gives `π` back. -/
theorem normPi : normAngle Real.pi = Real.pi := by
  have h2pi : (0 : ℝ) < 2 * Real.pi := by positivity
  simp only [normAngle, fmod, trunc]
  have hdiv : (Real.pi + 2 * Real.pi) / (2 * Real.pi) = 3 / 2 := by
    rw [div_eq_iff (ne_of_gt h2pi)]
    ring
  rw [hdiv, if_pos (by norm_num : (0 : ℝ) ≤ 3 / 2)]
  rw [show ⌊(3 / 2 : ℝ)⌋ = 1 from by rw [Int.floor_eq_iff] <;> norm_num]
  push_cast
  ring

/-- Normalizing `0` into `[0, 2π)` gives `0`. -/
theorem normZero : normAngle 0 = 0 := by
  have h2pi : (0 : ℝ) < 2 * Real.pi := by positivity
  simp only [normAngle, fmod, trunc]
  rw [zero_add, div_self (ne_of_gt h2pi)]
  rw [if_pos (by norm_num : (0 : ℝ) ≤ 1), Int.floor_one]
  push_cast
  ring

/-- The scenario-B head selection steps past the nearest waypoint:
head index `(1 + 1) % 4 = 2`. -/
theorem selB : selectFirstId track4 egoPosB 0 1 = 2 := by
  have hb : bearing egoPosB (track4.getD 1 wpDefault).pos = Real.pi := by
    rw [show track4.getD 1 wpDefault = wpB from rfl]
    exact bearB
  simp only [selectFirstId]
  rw [hb, normPi, normZero]
  rw [show |(0 : ℝ) - Real.pi| = Real.pi from by
    rw [zero_sub, abs_neg, abs_of_nonneg Real.pi_pos.le]]
  rw [show foldAngle Real.pi = Real.pi from by simp [foldAngle]]
  rw [if_pos (half_lt_self Real.pi_pos)]
  rfl

/-- C7: scenario B on the square track (0,0), (1,0), (1,1), (0,1) with
the ego vehicle at (1.05, 0) and yaw 0: the nearest waypoint is index
1, the bearing to it is `atan2 0 (-0.05) = π`, the folded difference
with yaw 0 is `π > π / 2`, so the head index is 2, and the published
window is [wp2, wp3, wp0, wp1, ...] continuing circularly to length
200. -/
theorem scenario_b :
    closestWaypointId track4 egoPosB = 1 ∧
    bearing egoPosB (track4.getD 1 wpDefault).pos = Real.pi ∧
    foldAngle |normAngle (yawFromQuaternion ⟨0, 0, 0, 1⟩)
      - normAngle (bearing egoPosB (track4.getD 1 wpDefault).pos)| = Real.pi ∧
    Real.pi / 2 < Real.pi ∧
    selectFirstId track4 egoPosB (yawFromQuaternion ⟨0, 0, 0, 1⟩) 1 = 2 ∧
    ∃ sB w, publish_waypoints stateB = Except.ok (sB, w) ∧
      w.length = 200 ∧
      w[0]? = some wpC ∧ w[1]? = some wpD ∧
      w[2]? = some wpA ∧ w[3]? = some wpB ∧
      ∀ i, i < 200 → w[i]? = some (track4.getD ((2 + i) % 4) wpDefault) := by
  have hb1 : bearing egoPosB (track4.getD 1 wpDefault).pos = Real.pi := by
    rw [show track4.getD 1 wpDefault = wpB from rfl]
    exact bearB
  have hfold : foldAngle |normAngle (yawFromQuaternion ⟨0, 0, 0, 1⟩)
      - normAngle (bearing egoPosB (track4.getD 1 wpDefault).pos)| = Real.pi := by
    rw [hb1, yawB, normPi, normZero]
    rw [show |(0 : ℝ) - Real.pi| = Real.pi from by
      rw [zero_sub, abs_neg, abs_of_nonneg Real.pi_pos.le]]
    simp [foldAngle]
  have hsel : selectFirstId track4 egoPosB (yawFromQuaternion ⟨0, 0, 0, 1⟩) 1 = 2 := by
    rw [yawB]
    exact selB
  have hlen : ¬ stateB.waypoints.length = 0 := by simp [stateB, track4]
  have hwin : publishedWindow stateB
      = writeWindow track4 (List.replicate LOOKAHEAD_WPS wpDefault) 2 := by
    simp only [publishedWindow, stateB, poseB]
    rw [closestB, yawB, selB]
  obtain ⟨hl, hc, -, -⟩ := writeWindowAux_spec track4 LOOKAHEAD_WPS 0 2
    (List.replicate LOOKAHEAD_WPS wpDefault) (by norm_num [track4]) (by simp)
  have hK : LOOKAHEAD_WPS = 200 := rfl
  have hcontent : ∀ i, i < 200 →
      (publishedWindow stateB)[i]? = some (track4.getD ((2 + i) % 4) wpDefault) := by
    intro i hi
    have hstep := hc i (by rw [hK]; exact hi)
    rw [show track4.length = 4 from rfl, Nat.zero_add] at hstep
    rw [hwin, writeWindow]
    exact hstep
  refine ⟨closestB, hb1, hfold, half_lt_self Real.pi_pos, hsel,
    publishedState stateB, publishedWindow stateB,
    publish_waypoints_ok stateB hlen, ?_, ?_, ?_, ?_, ?_, hcontent⟩
  · rw [hwin, writeWindow, hl, List.length_replicate]
    exact hK
  · have h0 := hcontent 0 (by norm_num)
    rw [show track4.getD ((2 + 0) % 4) wpDefault = wpC from rfl] at h0
    exact h0
  · have h0 := hcontent 1 (by norm_num)
    rw [show track4.getD ((2 + 1) % 4) wpDefault = wpD from rfl] at h0
    exact h0
  · have h0 := hcontent 2 (by norm_num)
    rw [show track4.getD ((2 + 2) % 4) wpDefault = wpA from rfl] at h0
    exact h0
  · have h0 := hcontent 3 (by norm_num)
    rw [show track4.getD ((2 + 3) % 4) wpDefault = wpB from rfl] at h0
    exact h0

end WUpd
